import Mathlib

/-!
MemoryMapping.cpp : CMdl and CMmMap.

A shallow embedding of `src/Common/Kernel/MemoryMapping.cpp`.

* Pointers (`void*`, `PMDL`) are natural numbers, `0` is `NULL`.
* The kernel routines the two classes call are external.  Every call is
  recorded as a `Call`, and its outcome is read from a `Platform`, an
  arbitrary function of the calls made so far and of the arguments, so that
  the same routine may succeed once and fail or fault the next time.
* A method takes the calls already made (`h`) and the object, and returns its
  C++ return value, the object afterwards, and the calls it made itself, in
  order (`Ret`).
* `__try / __except (EXCEPTION_EXECUTE_HANDLER)` is modelled by the outcome of
  the guarded routine: `false` / `none` means that it raised.
-/

set_option autoImplicit false

namespace MemoryMapping

/-! ## Kernel types used by the source -/

/-- The `LOCK_OPERATION` enumeration of the kernel headers. -/
inductive LOCK_OPERATION
  | IoReadAccess
  | IoWriteAccess
  | IoModifyAccess
  deriving DecidableEq, Repr

/-- The two processor modes passed to the pin and map routines. -/
inductive KPROCESSOR_MODE
  | KernelMode
  | UserMode
  deriving DecidableEq, Repr

/-- The `MEMORY_CACHING_TYPE` enumeration of the kernel headers. -/
inductive MEMORY_CACHING_TYPE
  | MmNonCached
  | MmCached
  | MmWriteCombined
  | MmHardwareCoherentCached
  | MmNonCachedUnordered
  | MmUSWCCached
  deriving DecidableEq, Repr

/-- The `MM_PAGE_PRIORITY` enumeration of the kernel headers. -/
inductive MM_PAGE_PRIORITY
  | LowPagePriority
  | NormalPagePriority
  | HighPagePriority
  deriving DecidableEq, Repr

open LOCK_OPERATION KPROCESSOR_MODE MEMORY_CACHING_TYPE MM_PAGE_PRIORITY

/-- One call of a kernel routine, with the arguments the source passes that are
not constants (`FALSE`, `NULL`). -/
inductive Call
  | IoAllocateMdl (virtualAddress : Nat) (length : Nat)
  | MmProbeAndLockPages (mdl : Nat) (mode : KPROCESSOR_MODE) (op : LOCK_OPERATION)
  | MmMapLockedPagesSpecifyCache (mdl : Nat) (mode : KPROCESSOR_MODE)
      (cacheType : MEMORY_CACHING_TYPE) (priority : MM_PAGE_PRIORITY)
  | MmUnmapLockedPages (mem : Nat) (mdl : Nat)
  | MmUnlockPages (mdl : Nat)
  | IoFreeMdl (mdl : Nat)
  | DbgPrint
  | MmMapIoSpace (physical : Nat) (size : Nat) (cacheType : MEMORY_CACHING_TYPE)
  | MmUnmapIoSpace (virtualAddress : Nat) (size : Nat)
  deriving DecidableEq, Repr

/-- Whether a call pins pages. -/
def Call.isPin : Call → Bool
  | .MmProbeAndLockPages _ _ _ => true
  | _ => false

/-- Whether a call maps locked pages. -/
def Call.isMap : Call → Bool
  | .MmMapLockedPagesSpecifyCache _ _ _ _ => true
  | _ => false

/-- Whether a call unpins pages. -/
def Call.isUnpin : Call → Bool
  | .MmUnlockPages _ => true
  | _ => false

/-- Whether a call unmaps locked pages. -/
def Call.isUnmap : Call → Bool
  | .MmUnmapLockedPages _ _ => true
  | _ => false

/-- The outcomes of the kernel routines whose result the source reads.  The
first argument of each field is the list of calls made before this one. -/
structure Platform where
  /-- The descriptor returned by `IoAllocateMdl`, `0` when it fails. -/
  IoAllocateMdl : List Call → Nat → Nat → Nat
  /-- Whether `MmProbeAndLockPages` returns (`true`) or raises (`false`). -/
  MmProbeAndLockPages : List Call → Nat → KPROCESSOR_MODE → LOCK_OPERATION → Bool
  /-- The pointer returned by `MmMapLockedPagesSpecifyCache` (`some 0` is a
  `NULL` result), `none` when it raises. -/
  MmMapLockedPagesSpecifyCache :
    List Call → Nat → KPROCESSOR_MODE → MEMORY_CACHING_TYPE → MM_PAGE_PRIORITY → Option Nat
  /-- The pointer returned by `MmMapIoSpace`, `0` when it fails. -/
  MmMapIoSpace : List Call → Nat → Nat → MEMORY_CACHING_TYPE → Nat

/-! ## CMdl : virtual to virtual -/

/-- The data members of `CMdl` (declared in `MemoryMapping.h`; their types are
read off the initialisers of the constructors). -/
structure CMdl where
  m_locked : Bool
  m_mem : Nat
  m_mdl : Nat
  m_lockOperation : LOCK_OPERATION
  deriving DecidableEq, Repr

/-- The result of a method: return value, object afterwards, calls made. -/
structure Ret (α : Type) where
  val : α
  self : CMdl
  calls : List Call
  deriving DecidableEq, Repr

/-- The value of `(ULONG)size`. -/
def toULONG (size : Nat) : Nat := size % 2 ^ 32

/-- `CMdl::CMdl(void* virtualAddress, size_t size)`. -/
def CMdl.ctor (P : Platform) (h : List Call) (virtualAddress size : Nat) : Ret Unit :=
  { val := ()
    self :=
      { m_locked := false
        m_mem := 0
        m_mdl := P.IoAllocateMdl h virtualAddress (toULONG size)
        m_lockOperation := IoWriteAccess }
    calls := [Call.IoAllocateMdl virtualAddress (toULONG size)] }

/-- `CMdl::CMdl(const void* virtualAddress, size_t size)`. -/
def CMdl.ctorConst (P : Platform) (h : List Call) (virtualAddress size : Nat) : Ret Unit :=
  { val := ()
    self :=
      { m_locked := false
        m_mem := 0
        m_mdl := P.IoAllocateMdl h virtualAddress (toULONG size)
        m_lockOperation := IoReadAccess }
    calls := [Call.IoAllocateMdl virtualAddress (toULONG size)] }

/-- Overload resolution between the two constructors: a `const void*` argument
selects the second one. -/
def CMdl.construct (isConst : Bool) (P : Platform) (h : List Call)
    (virtualAddress size : Nat) : Ret Unit :=
  if isConst then CMdl.ctorConst P h virtualAddress size
  else CMdl.ctor P h virtualAddress size

/-- `CMdl::~CMdl()`; only the calls matter, the object is gone afterwards. -/
def CMdl.dtor (s : CMdl) : List Call :=
  if s.m_mdl ≠ 0 then
    (if s.m_locked then [Call.MmUnlockPages s.m_mdl] else []) ++ [Call.IoFreeMdl s.m_mdl]
  else []

/-- `bool CMdl::Lock()`. -/
def CMdl.Lock (P : Platform) (h : List Call) (s : CMdl) : Ret Bool :=
  if s.m_mdl = 0 then
    { val := false, self := s, calls := [] }
  else if P.MmProbeAndLockPages h s.m_mdl KernelMode s.m_lockOperation then
    { val := true
      self := { s with m_locked := true }
      calls := [Call.MmProbeAndLockPages s.m_mdl KernelMode s.m_lockOperation] }
  else
    { val := false
      self := s
      calls := [Call.MmProbeAndLockPages s.m_mdl KernelMode s.m_lockOperation] }

/-- `void* CMdl::Map(MEMORY_CACHING_TYPE cacheType, bool user)`.  `l` is the
outcome of `!m_locked && !Lock()`: `Lock` runs only when `m_locked` is false. -/
def CMdl.Map (P : Platform) (h : List Call) (s : CMdl)
    (cacheType : MEMORY_CACHING_TYPE) (user : Bool) : Ret Nat :=
  if s.m_mdl = 0 then
    { val := 0, self := s, calls := [] }
  else
    let l : Ret Bool :=
      if s.m_locked then { val := true, self := s, calls := [] } else s.Lock P h
    if l.val = false then
      { val := 0, self := l.self, calls := l.calls }
    else if l.self.m_mem ≠ 0 then
      { val := 0, self := l.self, calls := l.calls }
    else
      let mode := if user then UserMode else KernelMode
      let priority := if user then NormalPagePriority else HighPagePriority
      match P.MmMapLockedPagesSpecifyCache (h ++ l.calls) l.self.m_mdl mode cacheType priority with
      | some p =>
        { val := p
          self := { l.self with m_mem := p }
          calls := l.calls ++
            [Call.MmMapLockedPagesSpecifyCache l.self.m_mdl mode cacheType priority] }
      | none =>
        { val := l.self.m_mem
          self := l.self
          calls := l.calls ++
            [Call.MmMapLockedPagesSpecifyCache l.self.m_mdl mode cacheType priority,
             Call.DbgPrint] }

/-- `const void* CMdl::ReadPtr(MEMORY_CACHING_TYPE cacheType)`. -/
def CMdl.ReadPtr (P : Platform) (h : List Call) (s : CMdl)
    (cacheType : MEMORY_CACHING_TYPE) : Ret Nat :=
  s.Map P h cacheType false

/-- `void* CMdl::WritePtr(MEMORY_CACHING_TYPE cacheType)`. -/
def CMdl.WritePtr (P : Platform) (h : List Call) (s : CMdl)
    (cacheType : MEMORY_CACHING_TYPE) : Ret Nat :=
  if s.m_lockOperation = IoWriteAccess then s.Map P h cacheType false
  else { val := 0, self := s, calls := [] }

/-- `const void* CMdl::ReadPtrUser(MEMORY_CACHING_TYPE cacheType)`. -/
def CMdl.ReadPtrUser (P : Platform) (h : List Call) (s : CMdl)
    (cacheType : MEMORY_CACHING_TYPE) : Ret Nat :=
  s.Map P h cacheType true

/-- `void* CMdl::WritePtrUser(MEMORY_CACHING_TYPE cacheType)`. -/
def CMdl.WritePtrUser (P : Platform) (h : List Call) (s : CMdl)
    (cacheType : MEMORY_CACHING_TYPE) : Ret Nat :=
  if s.m_lockOperation = IoWriteAccess then s.Map P h cacheType true
  else { val := 0, self := s, calls := [] }

/-- `void CMdl::Unmap()`. -/
def CMdl.Unmap (s : CMdl) : Ret Unit :=
  if s.m_mem ≠ 0 ∧ s.m_mdl ≠ 0 then
    { val := ()
      self := { s with m_mem := 0 }
      calls := [Call.MmUnmapLockedPages s.m_mem s.m_mdl] }
  else
    { val := (), self := s, calls := [] }

/-! ## Sequences of calls on one CMdl -/

/-- The four public methods that return a mapped pointer. -/
inductive Access
  | ReadPtr
  | WritePtr
  | ReadPtrUser
  | WritePtrUser
  deriving DecidableEq, Repr

/-- Dispatch to one of the four pointer methods. -/
def CMdl.access (a : Access) (P : Platform) (h : List Call) (s : CMdl)
    (cacheType : MEMORY_CACHING_TYPE) : Ret Nat :=
  match a with
  | .ReadPtr => s.ReadPtr P h cacheType
  | .WritePtr => s.WritePtr P h cacheType
  | .ReadPtrUser => s.ReadPtrUser P h cacheType
  | .WritePtrUser => s.WritePtrUser P h cacheType

/-- A call of a public method of `CMdl` between construction and destruction. -/
inductive Op
  | Lock
  | ptr (a : Access) (cacheType : MEMORY_CACHING_TYPE)
  | Unmap
  deriving DecidableEq, Repr

/-- An object together with every kernel call made so far. -/
structure Session where
  self : CMdl
  hist : List Call
  deriving DecidableEq, Repr

/-- The session that starts with the result of a constructor. -/
def Session.start (h : List Call) (r : Ret Unit) : Session :=
  { self := r.self, hist := h ++ r.calls }

/-- Perform one method call; the return value is dropped. -/
def Session.step (P : Platform) (σ : Session) : Op → Session
  | .Lock =>
    { self := (σ.self.Lock P σ.hist).self
      hist := σ.hist ++ (σ.self.Lock P σ.hist).calls }
  | .ptr a c =>
    { self := (σ.self.access a P σ.hist c).self
      hist := σ.hist ++ (σ.self.access a P σ.hist c).calls }
  | .Unmap =>
    { self := σ.self.Unmap.self
      hist := σ.hist ++ σ.self.Unmap.calls }

/-- Perform a finite sequence of method calls, left to right. -/
def Session.run (P : Platform) (σ : Session) (ops : List Op) : Session :=
  ops.foldl (Session.step P) σ

/-! ## CMmMap : physical to virtual -/

/-- A `PHYSICAL_ADDRESS`; `QuadPart` is the 64-bit pattern of the `LONGLONG`
member, as a number below `2 ^ 64`. -/
structure PHYSICAL_ADDRESS where
  QuadPart : Nat
  deriving DecidableEq, Repr

/-- The data members of `CMmMap` (declared in `MemoryMapping.h`; `m_size`
receives a `size_t` and is passed where a `SIZE_T` is expected). -/
structure CMmMap where
  m_size : Nat
  m_addrPhysical : PHYSICAL_ADDRESS
  m_addrVirtual : Nat
  deriving DecidableEq, Repr

/-- The result of a `CMmMap` constructor: the object and the calls made. -/
structure MmRet where
  self : CMmMap
  calls : List Call
  deriving DecidableEq, Repr

/-- Conversion of an integer to `ULONG_PTR`, `w` bits wide (32 or 64,
depending on the target the driver is built for). -/
def toULONG_PTR (w : Nat) (x : Nat) : Nat := x % 2 ^ w

/-- Conversion of an unsigned integer to the 64-bit pattern of a `LONGLONG`. -/
def toQuadPart (x : Nat) : Nat := x % 2 ^ 64

/-- `void* CMmMap::MapPhysicalToVirtual(const PHYSICAL_ADDRESS& address, size_t size)`:
the returned pointer and the call made. -/
def CMmMap.MapPhysicalToVirtual (P : Platform) (h : List Call)
    (address : PHYSICAL_ADDRESS) (size : Nat) : Nat × List Call :=
  (P.MmMapIoSpace h address.QuadPart size MmNonCached,
   [Call.MmMapIoSpace address.QuadPart size MmNonCached])

/-- `void CMmMap::Init(ULONG_PTR address, size_t size)`.  The argument is
converted to the type of the parameter, `ULONG_PTR`, on entry. -/
def CMmMap.Init (w : Nat) (P : Platform) (h : List Call) (address size : Nat) : MmRet :=
  let address := toULONG_PTR w address
  let m_addrPhysical : PHYSICAL_ADDRESS := { QuadPart := toQuadPart address }
  let r := CMmMap.MapPhysicalToVirtual P h m_addrPhysical size
  { self := { m_size := size, m_addrPhysical := m_addrPhysical, m_addrVirtual := r.1 }
    calls := r.2 }

/-- `CMmMap::CMmMap(ULONG_PTR address, size_t size)`. -/
def CMmMap.ctorInt (w : Nat) (P : Platform) (h : List Call) (address size : Nat) : MmRet :=
  CMmMap.Init w P h address size

/-- `CMmMap::CMmMap(const void* address, size_t size)`; `(ULONG_PTR)address` is
the numeric value of the pointer. -/
def CMmMap.ctorPtr (w : Nat) (P : Platform) (h : List Call) (address size : Nat) : MmRet :=
  CMmMap.Init w P h (toULONG_PTR w address) size

/-- `CMmMap::CMmMap(const PHYSICAL_ADDRESS& address, size_t size)`. -/
def CMmMap.ctorPhys (w : Nat) (P : Platform) (h : List Call)
    (address : PHYSICAL_ADDRESS) (size : Nat) : MmRet :=
  CMmMap.Init w P h address.QuadPart size

/-- `CMmMap::~CMmMap()`: the calls made. -/
def CMmMap.dtor (s : CMmMap) : List Call :=
  if s.m_addrVirtual ≠ 0 then [Call.MmUnmapIoSpace s.m_addrVirtual s.m_size] else []

/-- `void* CMmMap::GetVirtualAddress()`. -/
def CMmMap.GetVirtualAddress (s : CMmMap) : Nat := s.m_addrVirtual

/-- Whether a call maps a physical range. -/
def Call.isMapIoSpace : Call → Bool
  | .MmMapIoSpace _ _ _ => true
  | _ => false

/-- Whether a call unmaps a physical range. -/
def Call.isUnmapIoSpace : Call → Bool
  | .MmUnmapIoSpace _ _ => true
  | _ => false

/-- The three forms of the address argument of a `CMmMap` constructor. -/
inductive AddressArg
  | int (address : Nat)
  | ptr (address : Nat)
  | phys (address : PHYSICAL_ADDRESS)
  deriving DecidableEq, Repr

/-- Overload resolution between the three `CMmMap` constructors. -/
def CMmMap.construct (w : Nat) (P : Platform) (h : List Call) (arg : AddressArg)
    (size : Nat) : MmRet :=
  match arg with
  | .int a => CMmMap.ctorInt w P h a size
  | .ptr a => CMmMap.ctorPtr w P h a size
  | .phys a => CMmMap.ctorPhys w P h a size

/-! ## Concrete platforms used to evaluate the code -/

/-- A platform on which every routine succeeds: descriptors are `0x1000`,
mapped pointers are distinct non-null values. -/
def okPlatform : Platform :=
  { IoAllocateMdl := fun _ _ _ => 0x1000
    MmProbeAndLockPages := fun _ _ _ _ => true
    MmMapLockedPagesSpecifyCache := fun h _ _ _ _ => some (0x2000 + h.length)
    MmMapIoSpace := fun _ _ _ _ => 0xFFFF0000 }

/-- A platform on which pinning succeeds and mapping returns `NULL`. -/
def mapNullPlatform : Platform :=
  { IoAllocateMdl := fun _ _ _ => 0x1000
    MmProbeAndLockPages := fun _ _ _ _ => true
    MmMapLockedPagesSpecifyCache := fun _ _ _ _ _ => some 0
    MmMapIoSpace := fun _ _ _ _ => 0 }

/-- A platform on which pinning succeeds and mapping raises. -/
def mapFaultPlatform : Platform :=
  { IoAllocateMdl := fun _ _ _ => 0x1000
    MmProbeAndLockPages := fun _ _ _ _ => true
    MmMapLockedPagesSpecifyCache := fun _ _ _ _ _ => none
    MmMapIoSpace := fun _ _ _ _ => 0 }

/-- A platform on which descriptor allocation fails. -/
def noMdlPlatform : Platform :=
  { IoAllocateMdl := fun _ _ _ => 0
    MmProbeAndLockPages := fun _ _ _ _ => true
    MmMapLockedPagesSpecifyCache := fun h _ _ _ _ => some (0x2000 + h.length)
    MmMapIoSpace := fun _ _ _ _ => 0 }

/-- The object `CMdl::CMdl(void*, size_t)` builds on `okPlatform`. -/
def freshObject : CMdl :=
  { m_locked := false, m_mem := 0, m_mdl := 0x1000, m_lockOperation := IoWriteAccess }

/-- The calls made by that construction over `0x5000`, 4096 bytes. -/
def freshHist : List Call := [Call.IoAllocateMdl 0x5000 4096]

/-- The object after `Lock` and a successful `ReadPtr` on `okPlatform`. -/
def mappedObject : CMdl :=
  { m_locked := true, m_mem := 0x2002, m_mdl := 0x1000, m_lockOperation := IoWriteAccess }

/-- The calls made up to that state. -/
def mappedHist : List Call :=
  [Call.IoAllocateMdl 0x5000 4096,
   Call.MmProbeAndLockPages 0x1000 KernelMode IoWriteAccess,
   Call.MmMapLockedPagesSpecifyCache 0x1000 KernelMode MmCached HighPagePriority]

/-- The state invariant: an outstanding mapping implies pinned pages and a
descriptor. -/
def CMdl.Inv (s : CMdl) : Prop :=
  s.m_mem ≠ 0 → s.m_locked = true ∧ s.m_mdl ≠ 0

/-- The pin call `Lock` makes on `s`. -/
def CMdl.pinCall (s : CMdl) : Call :=
  Call.MmProbeAndLockPages s.m_mdl KernelMode s.m_lockOperation

/-- The mapping call `Map(cacheType, user)` makes on `s`. -/
def CMdl.mapCall (s : CMdl) (cacheType : MEMORY_CACHING_TYPE) (user : Bool) : Call :=
  Call.MmMapLockedPagesSpecifyCache s.m_mdl (if user then UserMode else KernelMode) cacheType
    (if user then NormalPagePriority else HighPagePriority)

/-- Whether the pin call of `s` after the calls `h` returns without raising. -/
def Platform.pinOk (P : Platform) (h : List Call) (s : CMdl) : Bool :=
  P.MmProbeAndLockPages h s.m_mdl KernelMode s.m_lockOperation

/-- The outcome of the mapping call of `s` after the calls `h`. -/
def Platform.mapOutcome (P : Platform) (h : List Call) (s : CMdl)
    (cacheType : MEMORY_CACHING_TYPE) (user : Bool) : Option Nat :=
  P.MmMapLockedPagesSpecifyCache h s.m_mdl (if user then UserMode else KernelMode) cacheType
    (if user then NormalPagePriority else HighPagePriority)

/-! ## Helper lemmas: the paths through `Lock` and `Map` -/

theorem Lock_mdl_null (P : Platform) (h : List Call) (s : CMdl) (hd : s.m_mdl = 0) :
    s.Lock P h = { val := false, self := s, calls := [] } := by
  simp [CMdl.Lock, hd]

theorem Lock_ok (P : Platform) (h : List Call) (s : CMdl) (hd : s.m_mdl ≠ 0)
    (hp : P.pinOk h s = true) :
    s.Lock P h = { val := true, self := { s with m_locked := true }, calls := [s.pinCall] } := by
  unfold Platform.pinOk at hp
  simp [CMdl.Lock, hd, hp, CMdl.pinCall]

theorem Lock_fault (P : Platform) (h : List Call) (s : CMdl) (hd : s.m_mdl ≠ 0)
    (hp : P.pinOk h s = false) :
    s.Lock P h = { val := false, self := s, calls := [s.pinCall] } := by
  unfold Platform.pinOk at hp
  simp [CMdl.Lock, hd, hp, CMdl.pinCall]

theorem Map_mdl_null (P : Platform) (h : List Call) (s : CMdl)
    (c : MEMORY_CACHING_TYPE) (u : Bool) (hd : s.m_mdl = 0) :
    s.Map P h c u = { val := 0, self := s, calls := [] } := by
  simp [CMdl.Map, hd]

theorem Map_pin_fault (P : Platform) (h : List Call) (s : CMdl)
    (c : MEMORY_CACHING_TYPE) (u : Bool) (hd : s.m_mdl ≠ 0) (hl : s.m_locked = false)
    (hp : P.pinOk h s = false) :
    s.Map P h c u = { val := 0, self := s, calls := [s.pinCall] } := by
  simp [CMdl.Map, hd, hl, Lock_fault P h s hd hp]

theorem Map_locked_busy (P : Platform) (h : List Call) (s : CMdl)
    (c : MEMORY_CACHING_TYPE) (u : Bool) (hd : s.m_mdl ≠ 0) (hl : s.m_locked = true)
    (hm : s.m_mem ≠ 0) :
    s.Map P h c u = { val := 0, self := s, calls := [] } := by
  simp [CMdl.Map, hd, hl, hm]

theorem Map_unlocked_busy (P : Platform) (h : List Call) (s : CMdl)
    (c : MEMORY_CACHING_TYPE) (u : Bool) (hd : s.m_mdl ≠ 0) (hl : s.m_locked = false)
    (hp : P.pinOk h s = true) (hm : s.m_mem ≠ 0) :
    s.Map P h c u =
      { val := 0, self := { s with m_locked := true }, calls := [s.pinCall] } := by
  simp [CMdl.Map, hd, hl, hm, Lock_ok P h s hd hp]

theorem Map_locked_some (P : Platform) (h : List Call) (s : CMdl)
    (c : MEMORY_CACHING_TYPE) (u : Bool) (p : Nat) (hd : s.m_mdl ≠ 0)
    (hl : s.m_locked = true) (hm : s.m_mem = 0) (hq : P.mapOutcome h s c u = some p) :
    s.Map P h c u = { val := p, self := { s with m_mem := p }, calls := [s.mapCall c u] } := by
  unfold Platform.mapOutcome at hq
  simp [CMdl.Map, hd, hl, hm, hq, CMdl.mapCall]

theorem Map_locked_none (P : Platform) (h : List Call) (s : CMdl)
    (c : MEMORY_CACHING_TYPE) (u : Bool) (hd : s.m_mdl ≠ 0)
    (hl : s.m_locked = true) (hm : s.m_mem = 0) (hq : P.mapOutcome h s c u = none) :
    s.Map P h c u = { val := 0, self := s, calls := [s.mapCall c u, Call.DbgPrint] } := by
  unfold Platform.mapOutcome at hq
  simp [CMdl.Map, hd, hl, hm, hq, CMdl.mapCall]

theorem Map_unlocked_some (P : Platform) (h : List Call) (s : CMdl)
    (c : MEMORY_CACHING_TYPE) (u : Bool) (p : Nat) (hd : s.m_mdl ≠ 0)
    (hl : s.m_locked = false) (hp : P.pinOk h s = true) (hm : s.m_mem = 0)
    (hq : P.mapOutcome (h ++ [s.pinCall]) s c u = some p) :
    s.Map P h c u =
      { val := p, self := { s with m_locked := true, m_mem := p },
        calls := [s.pinCall, s.mapCall c u] } := by
  unfold Platform.mapOutcome CMdl.pinCall at hq
  simp [CMdl.Map, hd, hl, hm, hq, Lock_ok P h s hd hp, CMdl.mapCall, CMdl.pinCall]

theorem Map_unlocked_none (P : Platform) (h : List Call) (s : CMdl)
    (c : MEMORY_CACHING_TYPE) (u : Bool) (hd : s.m_mdl ≠ 0)
    (hl : s.m_locked = false) (hp : P.pinOk h s = true) (hm : s.m_mem = 0)
    (hq : P.mapOutcome (h ++ [s.pinCall]) s c u = none) :
    s.Map P h c u =
      { val := 0, self := { s with m_locked := true },
        calls := [s.pinCall, s.mapCall c u, Call.DbgPrint] } := by
  unfold Platform.mapOutcome CMdl.pinCall at hq
  simp [CMdl.Map, hd, hl, hm, hq, Lock_ok P h s hd hp, CMdl.mapCall, CMdl.pinCall]

theorem with_locked_eq (s : CMdl) (hl : s.m_locked = true) :
    { s with m_locked := true } = s := by
  cases s
  simp_all

theorem with_mem_eq (s : CMdl) (hm : s.m_mem = 0) : { s with m_mem := 0 } = s := by
  cases s
  simp_all

/-- Every call of `Map` takes exactly one of eight paths. -/
theorem Map_paths (P : Platform) (h : List Call) (s : CMdl)
    (c : MEMORY_CACHING_TYPE) (u : Bool) :
    (s.m_mdl = 0 ∧ s.Map P h c u = { val := 0, self := s, calls := [] }) ∨
    (s.m_mdl ≠ 0 ∧ s.m_locked = false ∧ P.pinOk h s = false ∧
      s.Map P h c u = { val := 0, self := s, calls := [s.pinCall] }) ∨
    (s.m_mdl ≠ 0 ∧ s.m_locked = true ∧ s.m_mem ≠ 0 ∧
      s.Map P h c u = { val := 0, self := s, calls := [] }) ∨
    (s.m_mdl ≠ 0 ∧ s.m_locked = false ∧ P.pinOk h s = true ∧ s.m_mem ≠ 0 ∧
      s.Map P h c u =
        { val := 0, self := { s with m_locked := true }, calls := [s.pinCall] }) ∨
    (∃ p, s.m_mdl ≠ 0 ∧ s.m_locked = true ∧ s.m_mem = 0 ∧ P.mapOutcome h s c u = some p ∧
      s.Map P h c u =
        { val := p, self := { s with m_mem := p }, calls := [s.mapCall c u] }) ∨
    (s.m_mdl ≠ 0 ∧ s.m_locked = true ∧ s.m_mem = 0 ∧ P.mapOutcome h s c u = none ∧
      s.Map P h c u = { val := 0, self := s, calls := [s.mapCall c u, Call.DbgPrint] }) ∨
    (∃ p, s.m_mdl ≠ 0 ∧ s.m_locked = false ∧ P.pinOk h s = true ∧ s.m_mem = 0 ∧
      P.mapOutcome (h ++ [s.pinCall]) s c u = some p ∧
      s.Map P h c u =
        { val := p, self := { s with m_locked := true, m_mem := p },
          calls := [s.pinCall, s.mapCall c u] }) ∨
    (s.m_mdl ≠ 0 ∧ s.m_locked = false ∧ P.pinOk h s = true ∧ s.m_mem = 0 ∧
      P.mapOutcome (h ++ [s.pinCall]) s c u = none ∧
      s.Map P h c u =
        { val := 0, self := { s with m_locked := true },
          calls := [s.pinCall, s.mapCall c u, Call.DbgPrint] }) := by
  by_cases hd : s.m_mdl = 0
  · exact Or.inl ⟨hd, Map_mdl_null P h s c u hd⟩
  by_cases hl : s.m_locked = true
  · by_cases hm : s.m_mem = 0
    · rcases hq : P.mapOutcome h s c u with _ | p
      · exact Or.inr (Or.inr (Or.inr (Or.inr (Or.inr (Or.inl
          ⟨hd, hl, hm, rfl, Map_locked_none P h s c u hd hl hm hq⟩)))))
      · exact Or.inr (Or.inr (Or.inr (Or.inr (Or.inl
          ⟨p, hd, hl, hm, rfl, Map_locked_some P h s c u p hd hl hm hq⟩))))
    · exact Or.inr (Or.inr (Or.inl ⟨hd, hl, hm, Map_locked_busy P h s c u hd hl hm⟩))
  have hl0 : s.m_locked = false := by simpa using hl
  by_cases hp : P.pinOk h s = true
  · by_cases hm : s.m_mem = 0
    · rcases hq : P.mapOutcome (h ++ [s.pinCall]) s c u with _ | p
      · exact Or.inr (Or.inr (Or.inr (Or.inr (Or.inr (Or.inr (Or.inr
          ⟨hd, hl0, hp, hm, rfl, Map_unlocked_none P h s c u hd hl0 hp hm hq⟩))))))
      · exact Or.inr (Or.inr (Or.inr (Or.inr (Or.inr (Or.inr (Or.inl
          ⟨p, hd, hl0, hp, hm, rfl, Map_unlocked_some P h s c u p hd hl0 hp hm hq⟩))))))
    · exact Or.inr (Or.inr (Or.inr (Or.inl
        ⟨hd, hl0, hp, hm, Map_unlocked_busy P h s c u hd hl0 hp hm⟩)))
  · have hp0 : P.pinOk h s = false := by simpa using hp
    exact Or.inr (Or.inl ⟨hd, hl0, hp0, Map_pin_fault P h s c u hd hl0 hp0⟩)

theorem Map_mapped (P : Platform) (h : List Call) (s : CMdl)
    (c : MEMORY_CACHING_TYPE) (u : Bool) (hm : s.m_mem ≠ 0) :
    (s.Map P h c u).val = 0 ∧ (s.Map P h c u).self.m_mem = s.m_mem ∧
      (∀ x ∈ (s.Map P h c u).calls, x.isMap = false) ∧
      (s.m_locked = true → s.Map P h c u = { val := 0, self := s, calls := [] }) := by
  rcases Map_paths P h s c u with ⟨_, e⟩ | ⟨_, _, _, e⟩ | ⟨_, _, _, e⟩ | ⟨_, hl, _, _, e⟩ |
    ⟨p, _, _, h0, _⟩ | ⟨_, _, h0, _⟩ | ⟨p, _, _, _, h0, _⟩ | ⟨_, _, _, h0, _⟩
  · simp [e]
  · simp_all [CMdl.pinCall, Call.isMap]
  · simp [e]
  · simp_all [CMdl.pinCall, Call.isMap]
  · exact absurd h0 hm
  · exact absurd h0 hm
  · exact absurd h0 hm
  · exact absurd h0 hm

theorem Map_null_state (P : Platform) (h : List Call) (s : CMdl)
    (c : MEMORY_CACHING_TYPE) (u : Bool) (hr : (s.Map P h c u).val = 0) :
    (s.Map P h c u).self.m_mem = s.m_mem ∧
      ((s.Map P h c u).self = s ∨
        (s.m_locked = false ∧ s.m_mdl ≠ 0 ∧ P.pinOk h s = true ∧
          (s.Map P h c u).self = { s with m_locked := true } ∧
          (s.Map P h c u).calls.head? = some s.pinCall)) := by
  rcases Map_paths P h s c u with ⟨_, e⟩ | ⟨_, _, _, e⟩ | ⟨_, _, _, e⟩ | ⟨hd, hl, hp, _, e⟩ |
    ⟨p, _, _, hm, _, e⟩ | ⟨_, _, _, _, e⟩ | ⟨p, hd, hl, hp, hm, _, e⟩ | ⟨hd, hl, hp, hm, _, e⟩
  · simp [e]
  · simp [e]
  · simp [e]
  · rw [e]
    exact ⟨rfl, Or.inr ⟨hl, hd, hp, rfl, rfl⟩⟩
  · rw [e] at hr
    simp only at hr
    subst hr
    rw [e]
    exact ⟨hm.symm, Or.inl (with_mem_eq s hm)⟩
  · simp [e]
  · rw [e] at hr
    simp only at hr
    subst hr
    rw [e]
    exact ⟨hm.symm, Or.inr ⟨hl, hd, hp, by simp [← hm], rfl⟩⟩
  · rw [e]
    exact ⟨rfl, Or.inr ⟨hl, hd, hp, rfl, rfl⟩⟩

theorem Map_unchanged_of (P : Platform) (h : List Call) (s : CMdl)
    (c : MEMORY_CACHING_TYPE) (u : Bool) (hr : (s.Map P h c u).val = 0)
    (hk : s.m_locked = true ∨ s.m_mdl = 0 ∨ P.pinOk h s = false) :
    (s.Map P h c u).self = s := by
  rcases (Map_null_state P h s c u hr).2 with e | ⟨hl, hd, hp, _, _⟩
  · exact e
  · rcases hk with hk | hk | hk
    · rw [hl] at hk
      exact absurd hk (by decide)
    · exact absurd hk hd
    · rw [hp] at hk
      exact absurd hk (by decide)

theorem access_eq_Map_or_denied (a : Access) (P : Platform) (h : List Call) (s : CMdl)
    (c : MEMORY_CACHING_TYPE) :
    (∃ u, s.access a P h c = s.Map P h c u) ∨
      (s.access a P h c = { val := 0, self := s, calls := [] } ∧
        s.m_lockOperation ≠ IoWriteAccess) := by
  cases a
  · exact Or.inl ⟨false, rfl⟩
  · by_cases hw : s.m_lockOperation = IoWriteAccess
    · exact Or.inl ⟨false, by simp [CMdl.access, CMdl.WritePtr, hw]⟩
    · exact Or.inr ⟨by simp [CMdl.access, CMdl.WritePtr, hw], hw⟩
  · exact Or.inl ⟨true, rfl⟩
  · by_cases hw : s.m_lockOperation = IoWriteAccess
    · exact Or.inl ⟨true, by simp [CMdl.access, CMdl.WritePtrUser, hw]⟩
    · exact Or.inr ⟨by simp [CMdl.access, CMdl.WritePtrUser, hw], hw⟩

theorem Lock_paths (P : Platform) (h : List Call) (s : CMdl) :
    (s.m_mdl = 0 ∧ s.Lock P h = { val := false, self := s, calls := [] }) ∨
    (s.m_mdl ≠ 0 ∧ P.pinOk h s = true ∧
      s.Lock P h = { val := true, self := { s with m_locked := true }, calls := [s.pinCall] }) ∨
    (s.m_mdl ≠ 0 ∧ P.pinOk h s = false ∧
      s.Lock P h = { val := false, self := s, calls := [s.pinCall] }) := by
  by_cases hd : s.m_mdl = 0
  · exact Or.inl ⟨hd, Lock_mdl_null P h s hd⟩
  by_cases hp : P.pinOk h s = true
  · exact Or.inr (Or.inl ⟨hd, hp, Lock_ok P h s hd hp⟩)
  · have hp0 : P.pinOk h s = false := by simpa using hp
    exact Or.inr (Or.inr ⟨hd, hp0, Lock_fault P h s hd hp0⟩)

/-! ## Helper lemmas: what every method preserves -/

theorem Inv_Lock (P : Platform) (h : List Call) (s : CMdl) (hi : s.Inv) :
    (s.Lock P h).self.Inv := by
  rcases Lock_paths P h s with ⟨_, e⟩ | ⟨hd, _, e⟩ | ⟨_, _, e⟩
  · rw [e]; exact hi
  · rw [e]
    intro _
    exact ⟨rfl, hd⟩
  · rw [e]; exact hi

theorem Inv_Map (P : Platform) (h : List Call) (s : CMdl)
    (c : MEMORY_CACHING_TYPE) (u : Bool) (hi : s.Inv) : (s.Map P h c u).self.Inv := by
  rcases Map_paths P h s c u with ⟨_, e⟩ | ⟨_, _, _, e⟩ | ⟨_, _, _, e⟩ | ⟨hd, _, _, _, e⟩ |
    ⟨p, hd, hl, _, _, e⟩ | ⟨_, _, _, _, e⟩ | ⟨p, hd, _, _, _, _, e⟩ | ⟨hd, _, _, _, _, e⟩
  · rw [e]; exact hi
  · rw [e]; exact hi
  · rw [e]; exact hi
  · rw [e]
    intro _
    exact ⟨rfl, hd⟩
  · rw [e]
    intro _
    exact ⟨hl, hd⟩
  · rw [e]; exact hi
  · rw [e]
    intro _
    exact ⟨rfl, hd⟩
  · rw [e]
    intro _
    exact ⟨rfl, hd⟩

theorem Inv_access (a : Access) (P : Platform) (h : List Call) (s : CMdl)
    (c : MEMORY_CACHING_TYPE) (hi : s.Inv) : (s.access a P h c).self.Inv := by
  rcases access_eq_Map_or_denied a P h s c with ⟨u, hu⟩ | ⟨hden, _⟩
  · rw [hu]; exact Inv_Map P h s c u hi
  · rw [hden]; exact hi

theorem Inv_Unmap (s : CMdl) (hi : s.Inv) : s.Unmap.self.Inv := by
  unfold CMdl.Unmap
  split
  · intro hne
    exact absurd rfl hne
  · exact hi

theorem Inv_step (P : Platform) (σ : Session) (op : Op) (hi : σ.self.Inv) :
    (σ.step P op).self.Inv := by
  cases op with
  | Lock => exact Inv_Lock P σ.hist σ.self hi
  | ptr a c => exact Inv_access a P σ.hist σ.self c hi
  | Unmap => exact Inv_Unmap σ.self hi

theorem Inv_run (P : Platform) (ops : List Op) (σ : Session) (hi : σ.self.Inv) :
    (σ.run P ops).self.Inv := by
  induction ops generalizing σ with
  | nil => exact hi
  | cons op rest ih => exact ih (σ.step P op) (Inv_step P σ op hi)

theorem Inv_construct (isConst : Bool) (P : Platform) (h : List Call) (va size : Nat) :
    (CMdl.construct isConst P h va size).self.Inv := by
  intro hne
  cases isConst <;> simp [CMdl.construct, CMdl.ctor, CMdl.ctorConst] at hne

theorem lockOperation_Lock (P : Platform) (h : List Call) (s : CMdl) :
    (s.Lock P h).self.m_lockOperation = s.m_lockOperation := by
  rcases Lock_paths P h s with ⟨_, e⟩ | ⟨_, _, e⟩ | ⟨_, _, e⟩ <;> rw [e]

theorem lockOperation_Map (P : Platform) (h : List Call) (s : CMdl)
    (c : MEMORY_CACHING_TYPE) (u : Bool) :
    (s.Map P h c u).self.m_lockOperation = s.m_lockOperation := by
  rcases Map_paths P h s c u with ⟨_, e⟩ | ⟨_, _, _, e⟩ | ⟨_, _, _, e⟩ | ⟨_, _, _, _, e⟩ |
    ⟨p, _, _, _, _, e⟩ | ⟨_, _, _, _, e⟩ | ⟨p, _, _, _, _, _, e⟩ | ⟨_, _, _, _, _, e⟩ <;> rw [e]

theorem lockOperation_access (a : Access) (P : Platform) (h : List Call) (s : CMdl)
    (c : MEMORY_CACHING_TYPE) :
    (s.access a P h c).self.m_lockOperation = s.m_lockOperation := by
  rcases access_eq_Map_or_denied a P h s c with ⟨u, hu⟩ | ⟨hden, _⟩
  · rw [hu]; exact lockOperation_Map P h s c u
  · rw [hden]

theorem lockOperation_Unmap (s : CMdl) :
    s.Unmap.self.m_lockOperation = s.m_lockOperation := by
  unfold CMdl.Unmap
  split <;> rfl

theorem lockOperation_step (P : Platform) (σ : Session) (op : Op) :
    (σ.step P op).self.m_lockOperation = σ.self.m_lockOperation := by
  cases op with
  | Lock => exact lockOperation_Lock P σ.hist σ.self
  | ptr a c => exact lockOperation_access a P σ.hist σ.self c
  | Unmap => exact lockOperation_Unmap σ.self

theorem lockOperation_run (P : Platform) (ops : List Op) (σ : Session) :
    (σ.run P ops).self.m_lockOperation = σ.self.m_lockOperation := by
  induction ops generalizing σ with
  | nil => rfl
  | cons op rest ih =>
    exact (ih (σ.step P op)).trans (lockOperation_step P σ op)

theorem access_mdl_null (a : Access) (P : Platform) (h : List Call) (s : CMdl)
    (c : MEMORY_CACHING_TYPE) (hd : s.m_mdl = 0) :
    s.access a P h c = { val := 0, self := s, calls := [] } := by
  rcases access_eq_Map_or_denied a P h s c with ⟨u, hu⟩ | ⟨hden, _⟩
  · rw [hu]; exact Map_mdl_null P h s c u hd
  · exact hden

theorem Unmap_mdl_null (s : CMdl) (hd : s.m_mdl = 0) :
    s.Unmap = { val := (), self := s, calls := [] } := by
  simp [CMdl.Unmap, hd]

theorem step_mdl_null (P : Platform) (σ : Session) (op : Op) (hd : σ.self.m_mdl = 0) :
    σ.step P op = σ := by
  cases op with
  | Lock => simp [Session.step, Lock_mdl_null P σ.hist σ.self hd]
  | ptr a c => simp [Session.step, access_mdl_null a P σ.hist σ.self c hd]
  | Unmap => simp [Session.step, Unmap_mdl_null σ.self hd]

theorem run_mdl_null (P : Platform) (ops : List Op) (σ : Session) (hd : σ.self.m_mdl = 0) :
    σ.run P ops = σ := by
  induction ops with
  | nil => rfl
  | cons op rest ih =>
    show (σ.step P op).run P rest = σ
    rw [step_mdl_null P σ op hd]
    exact ih

/-! ## Helper lemmas: CMmMap -/

theorem Init_eq (w : Nat) (P : Platform) (h : List Call) (a size : Nat) :
    CMmMap.Init w P h a size =
      { self :=
          { m_size := size
            m_addrPhysical := { QuadPart := a % 2 ^ w % 2 ^ 64 }
            m_addrVirtual := P.MmMapIoSpace h (a % 2 ^ w % 2 ^ 64) size MmNonCached }
        calls := [Call.MmMapIoSpace (a % 2 ^ w % 2 ^ 64) size MmNonCached] } := rfl

theorem construct_shape (w : Nat) (P : Platform) (h : List Call) (arg : AddressArg)
    (size : Nat) :
    ∃ q, CMmMap.construct w P h arg size =
      { self :=
          { m_size := size
            m_addrPhysical := { QuadPart := q }
            m_addrVirtual := P.MmMapIoSpace h q size MmNonCached }
        calls := [Call.MmMapIoSpace q size MmNonCached] } := by
  cases arg with
  | int a => exact ⟨_, Init_eq w P h a size⟩
  | ptr a => exact ⟨_, Init_eq w P h (toULONG_PTR w a) size⟩
  | phys a => exact ⟨_, Init_eq w P h a.QuadPart size⟩

theorem mod_pow_of_le (a w : Nat) (hw : w ≤ 64) : a % 2 ^ w % 2 ^ 64 = a % 2 ^ w :=
  Nat.mod_eq_of_lt
    (lt_of_lt_of_le (Nat.mod_lt a (Nat.two_pow_pos w))
      (Nat.pow_le_pow_right (by decide) hw))

/-! ## Theorems -/

/-- C1 (evaluation of the code): on a fresh writable instance whose descriptor
is `0x1000` and on a platform where pinning never faults, `Lock(); Lock()`
returns `true` twice and each of the two calls runs `MmProbeAndLockPages`, so
the pages are pinned twice, while the destructor unpins once. -/
theorem Lock_twice_pins_twice :
    (CMdl.ctor okPlatform [] 0x5000 4096).self = freshObject ∧
      (CMdl.ctor okPlatform [] 0x5000 4096).calls = freshHist ∧
      (freshObject.Lock okPlatform freshHist).val = true ∧
      (freshObject.Lock okPlatform freshHist).calls =
        [Call.MmProbeAndLockPages 0x1000 KernelMode IoWriteAccess] ∧
      (freshObject.Lock okPlatform freshHist).self.m_locked = true ∧
      ((freshObject.Lock okPlatform freshHist).self.Lock okPlatform
        (freshHist ++ (freshObject.Lock okPlatform freshHist).calls)).val = true ∧
      ((freshObject.Lock okPlatform freshHist).self.Lock okPlatform
        (freshHist ++ (freshObject.Lock okPlatform freshHist).calls)).calls =
        [Call.MmProbeAndLockPages 0x1000 KernelMode IoWriteAccess] ∧
      (((Session.mk freshObject freshHist).run okPlatform [Op.Lock, Op.Lock]).hist.filter
        Call.isPin).length = 2 ∧
      ((Session.mk freshObject freshHist).run okPlatform [Op.Lock, Op.Lock]).self.dtor =
        [Call.MmUnlockPages 0x1000, Call.IoFreeMdl 0x1000] := by
  decide

/-- C2 (as stated, refuted): on a fresh unlocked instance, `ReadPtr` returns
`NULL` when the platform mapping returns `NULL`, and also when it raises, yet
`m_locked` has changed from `false` to `true`, because the implicit `Lock`
had already pinned the pages. -/
theorem ReadPtr_null_changes_lockState :
    freshObject.m_locked = false ∧
      (freshObject.ReadPtr mapNullPlatform freshHist MmCached).val = 0 ∧
      (freshObject.ReadPtr mapNullPlatform freshHist MmCached).self.m_locked = true ∧
      (freshObject.ReadPtr mapNullPlatform freshHist MmCached).self ≠ freshObject ∧
      (freshObject.ReadPtr mapFaultPlatform freshHist MmCached).val = 0 ∧
      (freshObject.ReadPtr mapFaultPlatform freshHist MmCached).self.m_locked = true ∧
      (freshObject.ReadPtr mapFaultPlatform freshHist MmCached).self ≠ freshObject := by
  decide

/-- C2 (amended): when `ReadPtr`, `WritePtr`, `ReadPtrUser` or `WritePtrUser`
returns `NULL`, in any state and for any cache policy, `m_mem`, `m_mdl` and
`m_lockOperation` are what they were; the object is unchanged altogether when
it was already locked, has no descriptor, or the pin raised; otherwise the
only change is `m_locked` going from `false` to `true`, made by the implicit
`Lock` whose pin call is the first call of the method. -/
theorem access_null_state (P : Platform) (h : List Call) (s : CMdl) (a : Access)
    (c : MEMORY_CACHING_TYPE) (hr : (s.access a P h c).val = 0) :
    (s.access a P h c).self.m_mem = s.m_mem ∧
      (s.access a P h c).self.m_mdl = s.m_mdl ∧
      (s.access a P h c).self.m_lockOperation = s.m_lockOperation ∧
      ((s.access a P h c).self = s ∨
        (s.m_locked = false ∧ s.m_mdl ≠ 0 ∧ P.pinOk h s = true ∧
          (s.access a P h c).self = { s with m_locked := true } ∧
          (s.access a P h c).calls.head? = some s.pinCall)) ∧
      (s.m_locked = true ∨ s.m_mdl = 0 ∨ P.pinOk h s = false →
        (s.access a P h c).self = s) := by
  rcases access_eq_Map_or_denied a P h s c with ⟨u, hu⟩ | ⟨hden, _⟩
  · rw [hu] at hr ⊢
    have h1 := Map_null_state P h s c u hr
    refine ⟨h1.1, ?_, lockOperation_Map P h s c u, h1.2, Map_unchanged_of P h s c u hr⟩
    rcases h1.2 with e | ⟨_, _, _, e, _⟩ <;> rw [e]
  · rw [hden]
    simp

/-- C2 (amended), instance: a fresh unlocked instance on a platform whose
mapping returns `NULL`. -/
theorem access_null_state_witness :
    (freshObject.access Access.ReadPtr mapNullPlatform freshHist MmCached).val = 0 ∧
      (freshObject.access Access.ReadPtr mapNullPlatform freshHist MmCached).self.m_mem = 0 ∧
      (freshObject.access Access.ReadPtr mapNullPlatform freshHist MmCached).self.m_mdl
        = 0x1000 :=
  ⟨by decide,
   (access_null_state mapNullPlatform freshHist freshObject Access.ReadPtr MmCached
      (by decide)).1,
   (access_null_state mapNullPlatform freshHist freshObject Access.ReadPtr MmCached
      (by decide)).2.1⟩

/-- C3: while a mapping is outstanding (`m_mem` non-null), each of `ReadPtr`,
`WritePtr`, `ReadPtrUser`, `WritePtrUser`, with any cache policy, returns
`NULL`, makes no `MmMapLockedPagesSpecifyCache` call and leaves `m_mem` as it
was; when the pages are pinned, as they are in every reachable state with a
mapping, it makes no call at all and leaves the whole object unchanged. -/
theorem access_while_mapped (P : Platform) (h : List Call) (s : CMdl) (a : Access)
    (c : MEMORY_CACHING_TYPE) (hm : s.m_mem ≠ 0) :
    (s.access a P h c).val = 0 ∧
      (s.access a P h c).self.m_mem = s.m_mem ∧
      (∀ x ∈ (s.access a P h c).calls, x.isMap = false) ∧
      (s.m_locked = true → s.access a P h c = { val := 0, self := s, calls := [] }) := by
  rcases access_eq_Map_or_denied a P h s c with ⟨u, hu⟩ | ⟨hden, _⟩
  · rw [hu]
    exact Map_mapped P h s c u hm
  · simp [hden]

/-- C3, instance: the instance reached by construct, `Lock`, `ReadPtr`, which
holds the mapping `0x2002`. -/
theorem access_while_mapped_witness :
    (Session.start [] (CMdl.construct false okPlatform [] 0x5000 4096)).run okPlatform
        [Op.Lock, Op.ptr Access.ReadPtr MmCached] =
        { self := mappedObject, hist := mappedHist } ∧
      mappedObject.m_mem ≠ 0 ∧
      (mappedObject.access Access.WritePtr okPlatform mappedHist MmCached).val = 0 ∧
      (mappedObject.access Access.WritePtr okPlatform mappedHist MmCached).self.m_mem
        = 0x2002 ∧
      mappedObject.access Access.WritePtr okPlatform mappedHist MmCached =
        { val := 0, self := mappedObject, calls := [] } :=
  ⟨by decide, by decide,
   (access_while_mapped okPlatform mappedHist mappedObject Access.WritePtr MmCached
      (by decide)).1,
   (access_while_mapped okPlatform mappedHist mappedObject Access.WritePtr MmCached
      (by decide)).2.1,
   (access_while_mapped okPlatform mappedHist mappedObject Access.WritePtr MmCached
      (by decide)).2.2.2 (by decide)⟩

/-- C4: on an instance built by the `const void*` constructor, after any
sequence of `Lock`, `ReadPtr`, `WritePtr`, `ReadPtrUser`, `WritePtrUser` and
`Unmap` calls with any platform outcomes, `WritePtr` and `WritePtrUser` return
`NULL` for every cache policy, make no kernel call and leave the object
unchanged. -/
theorem WritePtr_const_denied (P : Platform) (h : List Call) (va size : Nat)
    (ops : List Op) (c : MEMORY_CACHING_TYPE) :
    ((Session.start h (CMdl.ctorConst P h va size)).run P ops).self.WritePtr P
        ((Session.start h (CMdl.ctorConst P h va size)).run P ops).hist c =
        { val := 0
          self := ((Session.start h (CMdl.ctorConst P h va size)).run P ops).self
          calls := [] } ∧
      ((Session.start h (CMdl.ctorConst P h va size)).run P ops).self.WritePtrUser P
        ((Session.start h (CMdl.ctorConst P h va size)).run P ops).hist c =
        { val := 0
          self := ((Session.start h (CMdl.ctorConst P h va size)).run P ops).self
          calls := [] } := by
  have hro : ((Session.start h (CMdl.ctorConst P h va size)).run P ops).self.m_lockOperation
      = IoReadAccess := lockOperation_run P ops _
  constructor
  · simp [CMdl.WritePtr, hro]
  · simp [CMdl.WritePtrUser, hro]

/-- C5: in every state reached from either constructor by a finite sequence
of `Lock`, `ReadPtr`, `WritePtr`, `ReadPtrUser`, `WritePtrUser` and `Unmap`
calls, whatever the platform answers, a non-null `m_mem` implies that
`m_locked` is true and `m_mdl` is non-null. -/
theorem mapped_implies_locked (isConst : Bool) (P : Platform) (h : List Call)
    (va size : Nat) (ops : List Op)
    (hm : ((Session.start h (CMdl.construct isConst P h va size)).run P ops).self.m_mem ≠ 0) :
    ((Session.start h (CMdl.construct isConst P h va size)).run P ops).self.m_locked = true ∧
      ((Session.start h (CMdl.construct isConst P h va size)).run P ops).self.m_mdl ≠ 0 :=
  Inv_run P ops _ (Inv_construct isConst P h va size) hm

/-- C5, instance: construct, `Lock`, `ReadPtr`, `Unmap`, `WritePtrUser` on a
platform where everything succeeds ends with a mapping. -/
theorem mapped_implies_locked_witness :
    ((Session.start [] (CMdl.construct false okPlatform [] 0x5000 4096)).run okPlatform
        [Op.Lock, Op.ptr Access.ReadPtr MmCached, Op.Unmap,
          Op.ptr Access.WritePtrUser MmNonCached]).self.m_mem ≠ 0 ∧
      ((Session.start [] (CMdl.construct false okPlatform [] 0x5000 4096)).run okPlatform
        [Op.Lock, Op.ptr Access.ReadPtr MmCached, Op.Unmap,
          Op.ptr Access.WritePtrUser MmNonCached]).self.m_locked = true ∧
      ((Session.start [] (CMdl.construct false okPlatform [] 0x5000 4096)).run okPlatform
        [Op.Lock, Op.ptr Access.ReadPtr MmCached, Op.Unmap,
          Op.ptr Access.WritePtrUser MmNonCached]).self.m_mdl ≠ 0 :=
  ⟨by decide,
   mapped_implies_locked false okPlatform [] 0x5000 4096
     [Op.Lock, Op.ptr Access.ReadPtr MmCached, Op.Unmap,
       Op.ptr Access.WritePtrUser MmNonCached] (by decide)⟩

/-- C6: when `IoAllocateMdl` returns `NULL` in either constructor, the object
has a null `m_mdl`, and after any sequence of `Lock`, `ReadPtr`, `WritePtr`,
`ReadPtrUser`, `WritePtrUser` and `Unmap` calls the object and the list of
kernel calls are what they were right after construction; in that state `Lock`
returns `false`, the four pointer methods return `NULL`, `Unmap` and the
destructor do nothing, and none of them makes a kernel call or changes the
object. -/
theorem inert_after_allocation_failure (isConst : Bool) (P : Platform) (h : List Call)
    (va size : Nat) (ops : List Op)
    (hfail : P.IoAllocateMdl h va (toULONG size) = 0) :
    (Session.start h (CMdl.construct isConst P h va size)).run P ops =
        Session.start h (CMdl.construct isConst P h va size) ∧
      ((Session.start h (CMdl.construct isConst P h va size)).run P ops).self.m_mdl = 0 ∧
      ((Session.start h (CMdl.construct isConst P h va size)).run P ops).self.m_locked
        = false ∧
      ((Session.start h (CMdl.construct isConst P h va size)).run P ops).self.m_mem = 0 ∧
      ((Session.start h (CMdl.construct isConst P h va size)).run P ops).hist =
        h ++ [Call.IoAllocateMdl va (toULONG size)] ∧
      ((Session.start h (CMdl.construct isConst P h va size)).run P ops).self.Lock P
          ((Session.start h (CMdl.construct isConst P h va size)).run P ops).hist =
        { val := false
          self := ((Session.start h (CMdl.construct isConst P h va size)).run P ops).self
          calls := [] } ∧
      (∀ a c,
        ((Session.start h (CMdl.construct isConst P h va size)).run P ops).self.access a P
          ((Session.start h (CMdl.construct isConst P h va size)).run P ops).hist c =
        { val := 0
          self := ((Session.start h (CMdl.construct isConst P h va size)).run P ops).self
          calls := [] }) ∧
      ((Session.start h (CMdl.construct isConst P h va size)).run P ops).self.Unmap =
        { val := ()
          self := ((Session.start h (CMdl.construct isConst P h va size)).run P ops).self
          calls := [] } ∧
      ((Session.start h (CMdl.construct isConst P h va size)).run P ops).self.dtor = [] := by
  have hd : (Session.start h (CMdl.construct isConst P h va size)).self.m_mdl = 0 := by
    cases isConst <;> simpa [Session.start, CMdl.construct, CMdl.ctor, CMdl.ctorConst] using hfail
  have hrun := run_mdl_null P ops _ hd
  rw [hrun]
  refine ⟨rfl, hd, ?_, ?_, ?_, Lock_mdl_null P _ _ hd, fun a c => access_mdl_null a P _ _ c hd,
    Unmap_mdl_null _ hd, ?_⟩
  · cases isConst <;> rfl
  · cases isConst <;> rfl
  · cases isConst <;> rfl
  · simp [CMdl.dtor, hd]

/-- C6, instance: a read-write construction on a platform without descriptors,
followed by `Lock`, `WritePtr`, `Unmap`, `ReadPtrUser`. -/
theorem inert_after_allocation_failure_witness :
    noMdlPlatform.IoAllocateMdl [] 0x5000 (toULONG 4096) = 0 ∧
      (Session.start [] (CMdl.construct false noMdlPlatform [] 0x5000 4096)).run noMdlPlatform
          [Op.Lock, Op.ptr Access.WritePtr MmCached, Op.Unmap,
            Op.ptr Access.ReadPtrUser MmCached] =
        Session.start [] (CMdl.construct false noMdlPlatform [] 0x5000 4096) :=
  ⟨by decide,
   (inert_after_allocation_failure false noMdlPlatform [] 0x5000 4096
      [Op.Lock, Op.ptr Access.WritePtr MmCached, Op.Unmap,
        Op.ptr Access.ReadPtrUser MmCached] (by decide)).1⟩

/-- C7: in every state reached from either constructor, `Unmap` with a
non-null `m_mem` makes the single call `MmUnmapLockedPages(m_mem, m_mdl)`,
sets `m_mem` to `NULL` and changes nothing else (`m_locked` stays, no
`MmUnlockPages`); `Unmap` with a null `m_mem` makes no call and changes
nothing; and after a `Map` that returned a non-null pointer followed by
`Unmap`, a new `Map` makes exactly the call `MmMapLockedPagesSpecifyCache`
(followed by `DbgPrint` when it raises), no pin call, and returns what the
platform returned, `NULL` when it raised. -/
theorem Unmap_then_Map (isConst : Bool) (P : Platform) (h : List Call)
    (va size : Nat) (ops : List Op) :
    (((Session.start h (CMdl.construct isConst P h va size)).run P ops).self.m_mem ≠ 0 →
        ((Session.start h (CMdl.construct isConst P h va size)).run P ops).self.Unmap =
          { val := ()
            self :=
              { ((Session.start h (CMdl.construct isConst P h va size)).run P ops).self with
                m_mem := 0 }
            calls :=
              [Call.MmUnmapLockedPages
                ((Session.start h (CMdl.construct isConst P h va size)).run P ops).self.m_mem
                ((Session.start h (CMdl.construct isConst P h va size)).run P ops).self.m_mdl] }) ∧
      (((Session.start h (CMdl.construct isConst P h va size)).run P ops).self.m_mem = 0 →
        ((Session.start h (CMdl.construct isConst P h va size)).run P ops).self.Unmap =
          { val := ()
            self := ((Session.start h (CMdl.construct isConst P h va size)).run P ops).self
            calls := [] }) ∧
      (∀ (s : CMdl) (g : List Call) (c c2 : MEMORY_CACHING_TYPE) (u u2 : Bool),
        (s.Map P g c u).val ≠ 0 →
          (s.Map P g c u).self.Unmap.calls =
              [Call.MmUnmapLockedPages (s.Map P g c u).val (s.Map P g c u).self.m_mdl] ∧
            (s.Map P g c u).self.Unmap.self.m_locked = true ∧
            (s.Map P g c u).self.Unmap.self.m_mem = 0 ∧
            (∀ p,
              P.mapOutcome (g ++ (s.Map P g c u).calls ++ (s.Map P g c u).self.Unmap.calls)
                  (s.Map P g c u).self.Unmap.self c2 u2 = some p →
                (s.Map P g c u).self.Unmap.self.Map P
                    (g ++ (s.Map P g c u).calls ++ (s.Map P g c u).self.Unmap.calls) c2 u2 =
                  { val := p
                    self := { (s.Map P g c u).self.Unmap.self with m_mem := p }
                    calls := [(s.Map P g c u).self.Unmap.self.mapCall c2 u2] }) ∧
            (P.mapOutcome (g ++ (s.Map P g c u).calls ++ (s.Map P g c u).self.Unmap.calls)
                  (s.Map P g c u).self.Unmap.self c2 u2 = none →
                (s.Map P g c u).self.Unmap.self.Map P
                    (g ++ (s.Map P g c u).calls ++ (s.Map P g c u).self.Unmap.calls) c2 u2 =
                  { val := 0
                    self := (s.Map P g c u).self.Unmap.self
                    calls := [(s.Map P g c u).self.Unmap.self.mapCall c2 u2,
                      Call.DbgPrint] })) := by
  refine ⟨?_, ?_, ?_⟩
  · intro hm
    have hi := Inv_run P ops _ (Inv_construct isConst P h va size) hm
    simp [CMdl.Unmap, hm, hi.2]
  · intro hm
    simp [CMdl.Unmap, hm]
  · intro s g c c2 u u2 hv
    have key : (s.Map P g c u).self.m_mem = (s.Map P g c u).val ∧
        (s.Map P g c u).self.m_locked = true ∧ (s.Map P g c u).self.m_mdl ≠ 0 := by
      rcases Map_paths P g s c u with ⟨_, e⟩ | ⟨_, _, _, e⟩ | ⟨_, _, _, e⟩ | ⟨_, _, _, _, e⟩ |
        ⟨p, hd, hl, _, _, e⟩ | ⟨_, _, _, _, e⟩ | ⟨p, hd, _, _, _, _, e⟩ | ⟨_, _, _, _, _, e⟩
      · rw [e] at hv; exact absurd rfl hv
      · rw [e] at hv; exact absurd rfl hv
      · rw [e] at hv; exact absurd rfl hv
      · rw [e] at hv; exact absurd rfl hv
      · rw [e]; exact ⟨rfl, hl, hd⟩
      · rw [e] at hv; exact absurd rfl hv
      · rw [e]; exact ⟨rfl, rfl, hd⟩
      · rw [e] at hv; exact absurd rfl hv
    obtain ⟨k1, k2, k3⟩ := key
    have hmem : (s.Map P g c u).self.m_mem ≠ 0 := by rw [k1]; exact hv
    have hU : (s.Map P g c u).self.Unmap =
        { val := ()
          self := { (s.Map P g c u).self with m_mem := 0 }
          calls := [Call.MmUnmapLockedPages (s.Map P g c u).val (s.Map P g c u).self.m_mdl] } := by
      simp only [CMdl.Unmap]
      rw [if_pos ⟨hmem, k3⟩, k1]
    rw [hU]
    refine ⟨rfl, k2, rfl, ?_, ?_⟩
    · intro p hq
      exact Map_locked_some P _ _ c2 u2 p k3 k2 rfl hq
    · intro hq
      exact Map_locked_none P _ _ c2 u2 k3 k2 rfl hq

/-- C7, instance: on a platform where everything succeeds, `Unmap` after
construct, `Lock`, `ReadPtr`; `Unmap` right after construction; and
`ReadPtr`, `Unmap`, `ReadPtrUser` on a fresh instance, where the second
mapping is the pointer `0x2004` the platform returns. -/
theorem Unmap_then_Map_witness :
    ((Session.start [] (CMdl.construct false okPlatform [] 0x5000 4096)).run okPlatform
        [Op.Lock, Op.ptr Access.ReadPtr MmCached]).self = mappedObject ∧
      mappedObject.Unmap =
        { val := ()
          self := { mappedObject with m_mem := 0 }
          calls := [Call.MmUnmapLockedPages 0x2002 0x1000] } ∧
      freshObject.Unmap = { val := (), self := freshObject, calls := [] } ∧
      (freshObject.Map okPlatform freshHist MmCached false).val = 0x2002 ∧
      (freshObject.Map okPlatform freshHist MmCached false).self.Unmap.self.Map okPlatform
          (freshHist ++ (freshObject.Map okPlatform freshHist MmCached false).calls ++
            (freshObject.Map okPlatform freshHist MmCached false).self.Unmap.calls)
          MmNonCached true =
        { val := 0x2004
          self := { mappedObject with m_mem := 0x2004 }
          calls := [Call.MmMapLockedPagesSpecifyCache 0x1000 UserMode MmNonCached
            NormalPagePriority] } :=
  ⟨by decide,
   (Unmap_then_Map false okPlatform [] 0x5000 4096
      [Op.Lock, Op.ptr Access.ReadPtr MmCached]).1 (by decide),
   (Unmap_then_Map false okPlatform [] 0x5000 4096 []).2.1 (by decide),
   by decide,
   ((Unmap_then_Map false okPlatform [] 0x5000 4096 []).2.2 freshObject freshHist
      MmCached MmNonCached false true (by decide)).2.2.2.1 0x2004 (by decide)⟩

/-- C8: on an object with a non-null `m_mdl`, the destructor calls
`MmUnlockPages(m_mdl)` exactly when `m_locked` is true, then `IoFreeMdl(m_mdl)`
once, and nothing else, so never an unmap, whatever `m_mem` is; and
constructing and then destroying at once makes the `IoAllocateMdl` call
followed by `IoFreeMdl` of the descriptor it returned when that is non-null,
and no pin, map, unmap or unpin call. -/
theorem dtor_calls (s : CMdl) (hd : s.m_mdl ≠ 0) :
    s.dtor =
        (if s.m_locked then [Call.MmUnlockPages s.m_mdl] else []) ++ [Call.IoFreeMdl s.m_mdl] ∧
      (∀ x ∈ s.dtor, x.isUnmap = false) ∧
      (∀ (isConst : Bool) (P : Platform) (h : List Call) (va size : Nat),
        (CMdl.construct isConst P h va size).calls ++
            (CMdl.construct isConst P h va size).self.dtor =
          Call.IoAllocateMdl va (toULONG size) ::
            (if P.IoAllocateMdl h va (toULONG size) ≠ 0 then
              [Call.IoFreeMdl (P.IoAllocateMdl h va (toULONG size))]
            else []) ∧
        ∀ x ∈ (CMdl.construct isConst P h va size).calls ++
            (CMdl.construct isConst P h va size).self.dtor,
          x.isPin = false ∧ x.isMap = false ∧ x.isUnmap = false ∧ x.isUnpin = false) := by
  refine ⟨by simp [CMdl.dtor, hd], ?_, ?_⟩
  · intro x hx
    cases hl : s.m_locked <;> simp [CMdl.dtor, hd, hl] at hx
    · subst hx; rfl
    · rcases hx with hx | hx <;> subst hx <;> rfl
  · intro isConst P h va size
    have e : (CMdl.construct isConst P h va size).calls ++
        (CMdl.construct isConst P h va size).self.dtor =
        Call.IoAllocateMdl va (toULONG size) ::
          (if P.IoAllocateMdl h va (toULONG size) ≠ 0 then
            [Call.IoFreeMdl (P.IoAllocateMdl h va (toULONG size))]
          else []) := by
      cases isConst <;>
        by_cases ha : P.IoAllocateMdl h va (toULONG size) = 0 <;>
        simp [CMdl.construct, CMdl.ctor, CMdl.ctorConst, CMdl.dtor, ha]
    refine ⟨e, ?_⟩
    rw [e]
    intro x hx
    by_cases ha : P.IoAllocateMdl h va (toULONG size) = 0
    · simp [ha] at hx
      subst hx
      exact ⟨rfl, rfl, rfl, rfl⟩
    · simp [ha] at hx
      rcases hx with hx | hx <;> subst hx <;> exact ⟨rfl, rfl, rfl, rfl⟩

/-- C8, instance: destroying an instance that is pinned and still holds the
mapping `0x2002` unpins and frees, without unmapping. -/
theorem dtor_calls_witness :
    mappedObject.m_mdl ≠ 0 ∧
      mappedObject.dtor = [Call.MmUnlockPages 0x1000, Call.IoFreeMdl 0x1000] ∧
      freshObject.dtor = [Call.IoFreeMdl 0x1000] :=
  ⟨by decide, (dtor_calls mappedObject (by decide)).1, (dtor_calls freshObject (by decide)).1⟩

/-- C9 (as stated, refuted): built from the physical range `(0x1000, 0x1000)`
on a platform that maps it at `0xFFFF0000`, the single unmap call of the
destructor is `MmUnmapIoSpace(0xFFFF0000, 0x1000)`: its address is the virtual address
returned by the mapping, not the address `0x1000` the instance was built
from. -/
theorem CMmMap_unmap_address_is_virtual :
    (CMmMap.construct 64 okPlatform [] (AddressArg.int 0x1000) 0x1000).calls =
        [Call.MmMapIoSpace 0x1000 0x1000 MmNonCached] ∧
      (CMmMap.construct 64 okPlatform [] (AddressArg.int 0x1000) 0x1000).self.GetVirtualAddress
        = 0xFFFF0000 ∧
      (CMmMap.construct 64 okPlatform [] (AddressArg.int 0x1000) 0x1000).self.dtor =
        [Call.MmUnmapIoSpace 0xFFFF0000 0x1000] ∧
      (CMmMap.construct 64 okPlatform [] (AddressArg.int 0x1000) 0x1000).self.dtor ≠
        [Call.MmUnmapIoSpace 0x1000 0x1000] := by
  decide

/-- C9 (amended): for each of the three constructor forms, construction makes
the single call `MmMapIoSpace(m_addrPhysical, size, MmNonCached)`,
`GetVirtualAddress()` returns exactly what that call returned, the destructor
makes no call when that is `NULL`, and otherwise makes the single call
`MmUnmapIoSpace` with the virtual address returned at construction and the
size given at construction. -/
theorem CMmMap_lifecycle (w : Nat) (P : Platform) (h : List Call) (arg : AddressArg)
    (size : Nat) :
    (CMmMap.construct w P h arg size).calls =
        [Call.MmMapIoSpace (CMmMap.construct w P h arg size).self.m_addrPhysical.QuadPart
          size MmNonCached] ∧
      (CMmMap.construct w P h arg size).self.m_size = size ∧
      (CMmMap.construct w P h arg size).self.GetVirtualAddress =
        P.MmMapIoSpace h (CMmMap.construct w P h arg size).self.m_addrPhysical.QuadPart
          size MmNonCached ∧
      ((CMmMap.construct w P h arg size).self.GetVirtualAddress = 0 →
        (CMmMap.construct w P h arg size).self.dtor = []) ∧
      ((CMmMap.construct w P h arg size).self.GetVirtualAddress ≠ 0 →
        (CMmMap.construct w P h arg size).self.dtor =
          [Call.MmUnmapIoSpace (CMmMap.construct w P h arg size).self.GetVirtualAddress
            size]) := by
  obtain ⟨q, e⟩ := construct_shape w P h arg size
  rw [e]
  refine ⟨rfl, rfl, rfl, ?_, ?_⟩
  · intro h0
    simp only [CMmMap.GetVirtualAddress] at h0
    simp [CMmMap.dtor, h0]
  · intro h0
    simp only [CMmMap.GetVirtualAddress] at h0
    simp [CMmMap.dtor, h0, CMmMap.GetVirtualAddress]

/-- C9 (amended), instance: a range the platform rejects and a range it maps
at `0xFFFF0000`. -/
theorem CMmMap_lifecycle_witness :
    (CMmMap.construct 64 mapNullPlatform [] (AddressArg.int 0x1000) 0x1000).self.GetVirtualAddress
        = 0 ∧
      (CMmMap.construct 64 mapNullPlatform [] (AddressArg.int 0x1000) 0x1000).self.dtor = [] ∧
      (CMmMap.construct 64 okPlatform [] (AddressArg.phys { QuadPart := 0x1000 })
        0x1000).self.GetVirtualAddress ≠ 0 ∧
      (CMmMap.construct 64 okPlatform [] (AddressArg.phys { QuadPart := 0x1000 })
        0x1000).self.dtor = [Call.MmUnmapIoSpace 0xFFFF0000 0x1000] :=
  ⟨by decide,
   (CMmMap_lifecycle 64 mapNullPlatform [] (AddressArg.int 0x1000) 0x1000).2.2.2.1 (by decide),
   by decide,
   (CMmMap_lifecycle 64 okPlatform [] (AddressArg.phys { QuadPart := 0x1000 })
      0x1000).2.2.2.2 (by decide)⟩

/-- C10 (as stated, refuted): with a 32-bit `ULONG_PTR`, the structured form
with `QuadPart = 2 ^ 32` stores `QuadPart = 0` and maps the physical address
`0`, not `2 ^ 32`. -/
theorem ctorPhys_truncates :
    (2 : Nat) ^ 32 < 2 ^ 64 ∧
      (CMmMap.ctorPhys 32 okPlatform [] { QuadPart := 2 ^ 32 } 0x1000).self.m_addrPhysical.QuadPart
        = 0 ∧
      (CMmMap.ctorPhys 32 okPlatform [] { QuadPart := 2 ^ 32 } 0x1000).calls =
        [Call.MmMapIoSpace 0 0x1000 MmNonCached] ∧
      (CMmMap.ctorPhys 32 okPlatform [] { QuadPart := 2 ^ 32 } 0x1000).self.m_addrPhysical.QuadPart
        ≠ 2 ^ 32 := by
  decide

/-- C10 (amended): for a pointer width `w ≤ 64`, an address `a < 2 ^ w` and any
size, the three constructor forms build the same object and make the same
call: `QuadPart = a`, `m_size = size`, and the single request
`MmMapIoSpace(a, size, MmNonCached)`; the structured form with a 64-bit
`QuadPart = q` stores and maps `q mod 2 ^ w`, which is `q` itself when
`q < 2 ^ w`, hence for every 64-bit `q` when `w = 64`. -/
theorem CMmMap_forms (w : Nat) (P : Platform) (h : List Call) (a q size : Nat)
    (hw : w ≤ 64) (ha : a < 2 ^ w) (hq : q < 2 ^ 64) :
    CMmMap.ctorPtr w P h a size = CMmMap.ctorInt w P h a size ∧
      CMmMap.ctorPhys w P h { QuadPart := a } size = CMmMap.ctorInt w P h a size ∧
      (CMmMap.ctorInt w P h a size).self.m_addrPhysical.QuadPart = a ∧
      (CMmMap.ctorInt w P h a size).self.m_size = size ∧
      (CMmMap.ctorInt w P h a size).calls = [Call.MmMapIoSpace a size MmNonCached] ∧
      (CMmMap.ctorPhys w P h { QuadPart := q } size).self.m_addrPhysical.QuadPart = q % 2 ^ w ∧
      (CMmMap.ctorPhys w P h { QuadPart := q } size).self.m_size = size ∧
      (CMmMap.ctorPhys w P h { QuadPart := q } size).calls =
        [Call.MmMapIoSpace (q % 2 ^ w) size MmNonCached] ∧
      (q < 2 ^ w →
        (CMmMap.ctorPhys w P h { QuadPart := q } size).self.m_addrPhysical.QuadPart = q ∧
        (CMmMap.ctorPhys w P h { QuadPart := q } size).calls =
          [Call.MmMapIoSpace q size MmNonCached]) ∧
      (w = 64 →
        (CMmMap.ctorPhys w P h { QuadPart := q } size).self.m_addrPhysical.QuadPart = q ∧
        (CMmMap.ctorPhys w P h { QuadPart := q } size).calls =
          [Call.MmMapIoSpace q size MmNonCached]) := by
  have ea : a % 2 ^ w % 2 ^ 64 = a := by
    rw [mod_pow_of_le a w hw, Nat.mod_eq_of_lt ha]
  have eaa : a % 2 ^ w % 2 ^ w % 2 ^ 64 = a := by
    rw [Nat.mod_eq_of_lt ha, ea]
  have eq1 : q % 2 ^ w % 2 ^ 64 = q % 2 ^ w := mod_pow_of_le q w hw
  have small : q < 2 ^ w →
      (CMmMap.ctorPhys w P h { QuadPart := q } size).self.m_addrPhysical.QuadPart = q ∧
      (CMmMap.ctorPhys w P h { QuadPart := q } size).calls =
        [Call.MmMapIoSpace q size MmNonCached] := by
    intro hlt
    have e2 : q % 2 ^ w % 2 ^ 64 = q := by rw [eq1, Nat.mod_eq_of_lt hlt]
    rw [CMmMap.ctorPhys, Init_eq, e2]
    exact ⟨rfl, rfl⟩
  refine ⟨?_, ?_, ?_, rfl, ?_, ?_, rfl, ?_, small, ?_⟩
  · simp only [CMmMap.ctorPtr, CMmMap.ctorInt, toULONG_PTR, Init_eq, eaa, ea]
  · simp only [CMmMap.ctorPhys, CMmMap.ctorInt]
  · simp only [CMmMap.ctorInt, Init_eq, ea]
  · simp only [CMmMap.ctorInt, Init_eq, ea]
  · simp only [CMmMap.ctorPhys, Init_eq, eq1]
  · simp only [CMmMap.ctorPhys, Init_eq, eq1]
  · intro hw64
    subst hw64
    exact small hq

/-- C10 (amended), instance: a 64-bit build, the address `0xFEE00000` and the
structured address `2 ^ 32 + 0x1000`. -/
theorem CMmMap_forms_witness :
    (64 ≤ 64 ∧ 0xFEE00000 < 2 ^ 64 ∧ 2 ^ 32 + 0x1000 < 2 ^ 64) ∧
      CMmMap.ctorPtr 64 okPlatform [] 0xFEE00000 0x1000 =
        CMmMap.ctorInt 64 okPlatform [] 0xFEE00000 0x1000 ∧
      (CMmMap.ctorPhys 64 okPlatform [] { QuadPart := 2 ^ 32 + 0x1000 } 0x1000).calls =
        [Call.MmMapIoSpace (2 ^ 32 + 0x1000) 0x1000 MmNonCached] :=
  ⟨by decide,
   (CMmMap_forms 64 okPlatform [] 0xFEE00000 (2 ^ 32 + 0x1000) 0x1000
      (by decide) (by decide) (by decide)).1,
   ((CMmMap_forms 64 okPlatform [] 0xFEE00000 (2 ^ 32 + 0x1000) 0x1000
      (by decide) (by decide) (by decide)).2.2.2.2.2.2.2.2.2 rfl).2⟩

end MemoryMapping
